import Mathlib

/-!
Verification of the Redis-backed transcription job queue
(`app/job_queue.py`) and its background worker (`app/worker.py`).

The Redis state is embedded shallowly:
* a job hash `job:{id}` becomes a `JobHash` record of optional fields
  (an absent Redis hash field is `none`);
* the key space becomes an association list `hashes : List (String × JobHash)`;
* the pending list `transcription_queue` becomes `queue : List String`
  (`LPUSH` prepends, `BRPOP` removes from the end);
* per-key TTLs set by `EXPIRE` become `expireAt : List (String × Int)`
  holding absolute deadlines;
* messages accepted by `PUBLISH` are accumulated in `published`.

Timestamps (`datetime.utcnow()`) are passed in as explicit `Int` arguments,
and the fresh `uuid4` of `create_job` is passed in as an explicit `String`.
A Redis `PUBLISH` may raise (connection errors); each embedded operation
that publishes takes the publish outcome as an `Option String` parameter
(`none` = delivered, `some e` = the client raised with message `e`), since
`update_status` performs the publish after the hash write with no handler.
-/

/-- Job status enumeration (`JobStatus` in `job_queue.py`). -/
inductive JobStatus where
  | queued
  | processing
  | completed
  | failed
deriving DecidableEq, Repr

/-- Opaque transcription parameter bag; the queue/worker core never
inspects it beyond passing it through. -/
abbrev Params := List (String × String)

/-- Structured result returned by the external transcription capability
(`WhisperSTTService.transcribe`); the core stores it verbatim, only
`process_job` adds `processing_time`. -/
structure TranscriptionResult where
  text : String
  language : String
  duration : Int
  processing_time : Option Int
deriving DecidableEq, Repr

/-- One Redis job hash `job:{id}`: every field optional, `none` meaning the
hash field is absent. -/
structure JobHash where
  job_id : Option String
  status : Option JobStatus
  audio_path : Option String
  params : Option Params
  progress : Option Nat
  created_at : Option Int
  started_at : Option Int
  completed_at : Option Int
  result : Option TranscriptionResult
  error : Option String
deriving DecidableEq, Repr

/-- The hash with no fields set (what `HSET` starts from on a missing key). -/
def emptyHash : JobHash :=
  ⟨none, none, none, none, none, none, none, none, none, none⟩

/-- A message accepted by `PUBLISH` on channel `job:{id}:status`. -/
structure PubMsg where
  job_id : String
  status : JobStatus
  progress : Option Nat
deriving DecidableEq, Repr

/-- The embedded Redis state used by `JobQueue`. -/
structure RedisState where
  hashes : List (String × JobHash)
  expireAt : List (String × Int)
  queue : List String
  published : List PubMsg
deriving DecidableEq, Repr

/-- Association-list lookup (first binding wins), the embedding of reading
a Redis key. -/
def rlookup : List (String × α) → String → Option α
  | [], _ => none
  | (k, v) :: rest, key => if k = key then some v else rlookup rest key

/-- Association-list write: replace the first binding of `key`, or append a
fresh one. -/
def rset : List (String × α) → String → α → List (String × α)
  | [], key, v => [(key, v)]
  | (k, w) :: rest, key, v =>
    if k = key then (key, v) :: rest else (k, w) :: rset rest key v

/-- Association-list delete of the first binding of `key` (Redis `DEL`). -/
def rerase : List (String × α) → String → List (String × α)
  | [], _ => []
  | (k, w) :: rest, key => if k = key then rest else (k, w) :: rerase rest key

/-- Seven days in seconds, the TTL `create_job` passes to `EXPIRE`. -/
def SEVEN_DAYS : Int := 7 * 24 * 60 * 60

/-- `LPUSH`: prepend to the pending list (`job_queue.py` line 96). -/
def lpush (id : String) (q : List String) : List String := id :: q

/-- `BRPOP`: remove and return the element at the right end of the list,
or `none` when the list stays empty until the timeout
(`job_queue.py` line 185). -/
def brpop (q : List String) : List String × Option String :=
  match q.getLast? with
  | none => (q, none)
  | some id => (q.dropLast, some id)

/-- The hash body written by `JobQueue.create_job` (lines 78-85). -/
def createdHash (job_id audio_path : String) (params : Params) (now : Int) :
    JobHash :=
  { job_id := some job_id
    status := some JobStatus.queued
    audio_path := some audio_path
    params := some params
    progress := some 0
    created_at := some now
    started_at := none
    completed_at := none
    result := none
    error := none }

/-- `JobQueue.create_job` (lines 63-102): write the job hash, `LPUSH` the id
onto the pending list, set a 7-day expiry on the hash key, return the id.
The fresh `uuid4` and `utcnow` are passed in. -/
def create_job (st : RedisState) (job_id audio_path : String)
    (params : Params) (now : Int) : RedisState × String :=
  let st := { st with
    hashes := rset st.hashes job_id (createdHash job_id audio_path params now) }
  let st := { st with queue := lpush job_id st.queue }
  let st := { st with expireAt := rset st.expireAt job_id (now + SEVEN_DAYS) }
  (st, job_id)

/-- `JobQueue.get_job` (lines 104-127): `HGETALL`; an absent key yields an
empty dict, reported as `None`. (The per-field JSON decoding is identity in
the typed embedding.) -/
def get_job (st : RedisState) (job_id : String) : Option JobHash :=
  rlookup st.hashes job_id

/-- The subset of hash fields a single `update_status` call may write;
`none` means the field is not part of the `HSET` mapping. -/
structure FieldUpdates where
  status : Option JobStatus
  progress : Option Nat
  result : Option TranscriptionResult
  error : Option String
  started_at : Option Int
  completed_at : Option Int
deriving DecidableEq, Repr

/-- The empty `HSET` mapping. -/
def noUpdates : FieldUpdates := ⟨none, none, none, none, none, none⟩

/-- Overwrite-if-supplied: the per-field semantics of `HSET` with a mapping. -/
def upd (new old : Option α) : Option α :=
  match new with
  | some v => some v
  | none => old

/-- `HSET` with a mapping of the six updatable fields: fields present in the
mapping overwrite, absent fields are untouched (`job_queue.py` lines 164-167;
Redis hash-merge semantics). -/
def hsetMerge (u : FieldUpdates) (h : JobHash) : JobHash :=
  { h with
    status := upd u.status h.status
    progress := upd u.progress h.progress
    result := upd u.result h.result
    error := upd u.error h.error
    started_at := upd u.started_at h.started_at
    completed_at := upd u.completed_at h.completed_at }

/-- The `updates` dict built by `JobQueue.update_status` (lines 141-162):
`status` always; `progress`, `result`, `error` when not `None`;
`started_at := now` when the new status is Processing; `completed_at := now`
when it is Completed or Failed. -/
def mkUpdates (status : JobStatus) (progress : Option Nat)
    (result : Option TranscriptionResult) (error : Option String)
    (now : Int) : FieldUpdates :=
  { status := some status
    progress := progress
    result := result
    error := error
    started_at :=
      if status = JobStatus.processing then some now else none
    completed_at :=
      if status = JobStatus.completed ∨ status = JobStatus.failed then some now
      else none }

/-- `JobQueue.update_status` (lines 129-176): `HSET` the merged fields (this
creates the hash when the key is absent and never touches the key's TTL),
then `PUBLISH` a message on `job:{id}:status` carrying the id, the new
status and the `progress` argument. The publish is not guarded by any
handler: `publishFails = some e` models the Redis client raising there, in
which case the call returns the exception; the hash write stays applied. -/
def update_status (st : RedisState) (job_id : String) (status : JobStatus)
    (progress : Option Nat) (result : Option TranscriptionResult)
    (error : Option String) (now : Int) (publishFails : Option String) :
    RedisState × Except String Unit :=
  let u := mkUpdates status progress result error now
  let h₀ := (rlookup st.hashes job_id).getD emptyHash
  let st := { st with hashes := rset st.hashes job_id (hsetMerge u h₀) }
  match publishFails with
  | none =>
    ({ st with published := st.published ++ [⟨job_id, status, progress⟩] },
     Except.ok ())
  | some e => (st, Except.error e)

/-- `JobQueue.get_next_job` (lines 178-194): `BRPOP` the pending list; on
timeout return `None`; on an id, return `get_job` of that id — which is
also `None` when the popped id has no hash, and the id is not re-enqueued. -/
def get_next_job (st : RedisState) : RedisState × Option JobHash :=
  match brpop st.queue with
  | (_, none) => (st, none)
  | (q', some jid) => ({ st with queue := q' }, get_job st jid)

/-- Redis `DEL`: remove the key and, with it, its TTL. -/
def deleteKey (st : RedisState) (key : String) : RedisState :=
  { st with
    hashes := rerase st.hashes key
    expireAt := rerase st.expireAt key }

/-- Redis key expiry, modelled from the backend semantics of the `EXPIRE`
call in `create_job` (line 99): once the current time reaches a key's
deadline the key is removed, regardless of the hash contents; keys without
a deadline persist.  `HSET` (and hence `update_status`) never modifies a
TTL, so the only deadline a job key ever has is the one set at creation. -/
def expirePass (st : RedisState) (now : Int) : RedisState :=
  { st with
    hashes := st.hashes.filter (fun e =>
      match rlookup st.expireAt e.1 with
      | some d => decide (now < d)
      | none => true)
    expireAt := st.expireAt.filter (fun e => decide (now < e.2)) }

/-- Python `str()` of a `JobStatus` member.  `JobStatus` is a
`(str, Enum)` mixin, not a `StrEnum`, so `str(member)` is the member
display `"JobStatus.X"`, never the member value.  This is the string the
`HSET` mappings actually store for the status field (`create_job` line 92
and `update_status` line 167 both serialize with `str(v)`), and — because
`json.loads` fails on that bare word — it is also the string `get_job`
hands back for the field. -/
def pyStatusStr : JobStatus → String
  | JobStatus.queued => "JobStatus.QUEUED"
  | JobStatus.processing => "JobStatus.PROCESSING"
  | JobStatus.completed => "JobStatus.COMPLETED"
  | JobStatus.failed => "JobStatus.FAILED"

/-- The value of a `JobStatus` member (`"queued"`, ...): what `==` against
the member compares, since the `str` mixin inherits string equality on the
value. -/
def statusValue : JobStatus → String
  | JobStatus.queued => "queued"
  | JobStatus.processing => "processing"
  | JobStatus.completed => "completed"
  | JobStatus.failed => "failed"

/-- The status test of `cleanup_old_jobs` line 251,
`job.get("status") in [JobStatus.COMPLETED, JobStatus.FAILED]`, as it
actually evaluates: the stored string `str(member)` (see `pyStatusStr`)
compared by the membership test's string equality against the two
members' values.  The two representations never coincide. -/
def storedTerminalTest (s : Option JobStatus) : Bool :=
  match s with
  | some v => pyStatusStr v == statusValue JobStatus.completed
      || pyStatusStr v == statusValue JobStatus.failed
  | none => false

/-- The scan loop of `cleanup_old_jobs`: visit each job key, delete those
passing the line-251 status test whose `completed_at` predates the
cutoff, counting deletions.  (The status test never passes — see
`storedTerminalTest` — but the deletion branch is kept for structural
fidelity to the loop.) -/
def cleanupGo (cutoff : Int) : List String → RedisState → Nat →
    RedisState × Nat
  | [], st, deleted => (st, deleted)
  | key :: ks, st, deleted =>
    match get_job st key with
    | some job =>
      if storedTerminalTest job.status then
        match job.completed_at with
        | some completed_date =>
          if completed_date < cutoff then
            cleanupGo cutoff ks (deleteKey st key) (deleted + 1)
          else cleanupGo cutoff ks st deleted
        | none => cleanupGo cutoff ks st deleted
      else cleanupGo cutoff ks st deleted
    | none => cleanupGo cutoff ks st deleted

/-- `JobQueue.cleanup_old_jobs` (lines 235-262): cutoff is `now` minus
`days` days; scan all job keys and delete the jobs passing the line-251
status test that were completed before the cutoff, returning the number
deleted. -/
def cleanup_old_jobs (st : RedisState) (days : Nat) (now : Int) :
    RedisState × Nat :=
  let cutoff := now - (days : Int) * 86400
  cleanupGo cutoff (st.hashes.map (fun e => e.1)) st 0

instance decEqExcept {ε α : Type} [DecidableEq ε] [DecidableEq α] :
    DecidableEq (Except ε α) := fun a b =>
  match a, b with
  | Except.ok x, Except.ok y =>
    if h : x = y then isTrue (by rw [h])
    else isFalse (by intro hh; cases hh; exact h rfl)
  | Except.ok _, Except.error _ => isFalse (by intro hh; cases hh)
  | Except.error _, Except.ok _ => isFalse (by intro hh; cases hh)
  | Except.error x, Except.error y =>
    if h : x = y then isTrue (by rw [h])
    else isFalse (by intro hh; cases hh; exact h rfl)

/-- Outcome of the environment a single `process_job` run interacts with:
whether the audio file exists at check time, the outcome of the external
transcription call, how long it took, and whether each of the (up to three)
`PUBLISH` steps inside `update_status` raises (`none` = delivered,
`some e` = the Redis client raised with message `e`). -/
structure WorkerEnv where
  fileExists : Bool
  transcribe : Except String TranscriptionResult
  elapsed : Int
  pubProcessing : Option String
  pubCompleted : Option String
  pubFailed : Option String
deriving DecidableEq, Repr

/-- Observable events of one `process_job` run: each `HSET` performed by an
`update_status` call (with the `progress` argument it carried), and the
invocation of the external transcription capability. -/
inductive WEvent where
  | statusWrite (status : JobStatus) (progress : Option Nat)
  | transcribeCall
deriving DecidableEq, Repr

/-- Result of one `process_job` run: the final Redis state, the event
trace, the Redis state after each hash write, and the exception escaping
`process_job`, if any (possible only from the Failed update's unguarded
publish, or from a malformed job dict). -/
structure ProcResult where
  state : RedisState
  trace : List WEvent
  snapshots : List RedisState
  raised : Option String
deriving DecidableEq, Repr

/-- The `except Exception` handler of `process_job` (worker.py lines
127-135): write status Failed with `error = str(e)`; the handler itself is
unguarded, so a publish failure inside this update escapes `process_job`. -/
def processFail (env : WorkerEnv) (st : RedisState) (jid msg : String)
    (tr : List WEvent) (snaps : List RedisState) (now : Int) : ProcResult :=
  let r := update_status st jid JobStatus.failed none none (some msg) now
    env.pubFailed
  { state := r.1
    trace := tr ++ [WEvent.statusWrite JobStatus.failed none]
    snapshots := snaps ++ [r.1]
    raised :=
      match r.2 with
      | Except.ok _ => none
      | Except.error e => some e }

/-- `TranscriptionWorker.process_job` (worker.py lines 74-144): read
`job_id`, `audio_path`, `params` from the job dict (a `KeyError` on a
missing field escapes before the `try` block); inside the `try`, write
Processing with progress 10, raise `FileNotFoundError` when the audio file
is missing, invoke the external transcription capability, attach
`processing_time`, and write Completed with progress 100 and the result.
Any exception in the `try` block lands in `processFail`. -/
def process_job (env : WorkerEnv) (st : RedisState) (job : JobHash)
    (now : Int) : ProcResult :=
  match job.job_id, job.audio_path, job.params with
  | some jid, some audio_path, some _params =>
    let r₁ := update_status st jid JobStatus.processing (some 10) none none
      now env.pubProcessing
    let tr₁ := [WEvent.statusWrite JobStatus.processing (some 10)]
    let snaps₁ := [r₁.1]
    match r₁.2 with
    | Except.error e => processFail env r₁.1 jid e tr₁ snaps₁ now
    | Except.ok _ =>
      if !env.fileExists then
        processFail env r₁.1 jid ("Audio file not found: " ++ audio_path)
          tr₁ snaps₁ now
      else
        let tr₂ := tr₁ ++ [WEvent.transcribeCall]
        match env.transcribe with
        | Except.error e => processFail env r₁.1 jid e tr₂ snaps₁ now
        | Except.ok res =>
          let res := { res with processing_time := some env.elapsed }
          let r₂ := update_status r₁.1 jid JobStatus.completed (some 100)
            (some res) none now env.pubCompleted
          let tr₃ := tr₂ ++ [WEvent.statusWrite JobStatus.completed (some 100)]
          let snaps₂ := snaps₁ ++ [r₂.1]
          match r₂.2 with
          | Except.error e => processFail env r₂.1 jid e tr₃ snaps₂ now
          | Except.ok _ =>
            { state := r₂.1, trace := tr₃, snapshots := snaps₂, raised := none }
  | _, _, _ =>
    { state := st, trace := [], snapshots := [],
      raised := some "KeyError: job field missing" }

/-- The sequence of status values hash-written during a trace. -/
def statusTrace (tr : List WEvent) : List JobStatus :=
  tr.filterMap (fun e =>
    match e with
    | WEvent.statusWrite s _ => some s
    | WEvent.transcribeCall => none)

/-- The status sequences the specification allows for one job: a prefix of
Queued, Processing, then exactly one terminal status. -/
def forwardOk (l : List JobStatus) : Prop :=
  l = [] ∨ l = [JobStatus.queued] ∨
  l = [JobStatus.queued, JobStatus.processing] ∨
  l = [JobStatus.queued, JobStatus.processing, JobStatus.completed] ∨
  l = [JobStatus.queued, JobStatus.processing, JobStatus.failed]

instance : DecidablePred forwardOk := by
  intro l
  unfold forwardOk
  infer_instance

/-- One step of an arbitrary producer/consumer interleaving against the
shared state: a submission (one `create_job`, with its fresh uuid and
creation time passed in) or one worker poll (one `get_next_job`). -/
inductive QOp where
  | submit (id audio_path : String) (params : Params) (t : Int)
  | take
deriving Repr

/-- Run an interleaving of `create_job` and `get_next_job` calls,
accumulating the ids in arrival (enqueue) order and the ids handed out by
the `BRPOP` inside `get_next_job`, in hand-out order. -/
def runOps : List QOp → RedisState → List String → List String →
    RedisState × List String × List String
  | [], st, enqs, deqs => (st, enqs, deqs)
  | QOp.submit id a p t :: rest, st, enqs, deqs =>
    let r := create_job st id a p t
    runOps rest r.1 (enqs ++ [r.2]) deqs
  | QOp.take :: rest, st, enqs, deqs =>
    let popped := (brpop st.queue).2
    let r := get_next_job st
    runOps rest r.1 enqs
      (deqs ++ (match popped with | some i => [i] | none => []))

/-- Concrete fixtures used by witnesses and counterexamples. -/
def emptyRedis : RedisState := ⟨[], [], [], []⟩

def exResult : TranscriptionResult := ⟨"hello", "en", 3, none⟩

def exCreated : RedisState := (create_job emptyRedis "j1" "a.wav" [] 0).1

/-- Environment of a run in which the transcription succeeds but the
`PUBLISH` inside the Completed update raises. -/
def exEnvPubFail : WorkerEnv :=
  ⟨true, Except.ok exResult, 2, none, some "redis connection lost", none⟩

/-- The run of `process_job` under `exEnvPubFail`, on the job created by
`exCreated`. -/
def exRunPubFail : ProcResult :=
  process_job exEnvPubFail exCreated (createdHash "j1" "a.wav" [] 0) 5

/-- Environment of a normal run whose audio file is missing at claim time. -/
def exEnvNoFile : WorkerEnv :=
  ⟨false, Except.error "unreachable", 2, none, none, none⟩

/-- A store holding one stale completed job: terminal status, completed on
day 1 — well before any later 7-day cutoff. -/
def exStaleDone : RedisState :=
  ⟨[("a", { emptyHash with
      status := some JobStatus.completed
      completed_at := some 86400 })], [], [], []⟩

/-- The result/error invariant claimed for a job record: `result` present
iff status is Completed, `error` present iff status is Failed, never both.
`false` when the record does not exist. -/
def resultErrorInv (st : RedisState) (jid : String) : Bool :=
  match get_job st jid with
  | some h =>
    (h.result.isSome == decide (h.status = some JobStatus.completed))
      && (h.error.isSome == decide (h.status = some JobStatus.failed))
      && !(h.result.isSome && h.error.isSome)
  | none => false

/-! ## Helper lemmas about the association-list primitives -/

theorem rlookup_rset_self (l : List (String × α)) (k : String) (v : α) :
    rlookup (rset l k v) k = some v := by
  induction l with
  | nil => simp [rset, rlookup]
  | cons hd tl ih =>
    obtain ⟨k', v'⟩ := hd
    by_cases h : k' = k
    · simp [rset, rlookup, h]
    · simp [rset, rlookup, h, ih]

theorem rlookup_rset_ne (l : List (String × α)) (k k' : String) (v : α)
    (h : k' ≠ k) : rlookup (rset l k v) k' = rlookup l k' := by
  have hne : k ≠ k' := fun hh => h hh.symm
  induction l with
  | nil => simp [rset, rlookup, hne]
  | cons hd tl ih =>
    obtain ⟨k₀, v₀⟩ := hd
    by_cases h₀ : k₀ = k
    · subst h₀
      simp [rset, rlookup, hne]
    · simp [rset, rlookup, h₀, ih]





theorem rlookup_filter_none (l : List (String × α)) (p : String × α → Bool)
    (k : String) (hp : ∀ v, p (k, v) = false) :
    rlookup (l.filter p) k = none := by
  induction l with
  | nil => rfl
  | cons hd tl ih =>
    obtain ⟨k₀, v₀⟩ := hd
    by_cases h₀ : k₀ = k
    · subst h₀
      simp [List.filter, hp v₀, ih]
    · cases hpv : p (k₀, v₀) <;> simp [List.filter, hpv, rlookup, h₀, ih]

theorem dropLast_append_last (l : List String) (x : String)
    (h : l.getLast? = some x) : l.dropLast ++ [x] = l := by
  induction l with
  | nil => simp at h
  | cons a t ih =>
    cases t with
    | nil =>
      simp [List.getLast?] at h
      simp [h]
    | cons b t' =>
      have h' : (b :: t').getLast? = some x := h
      simp [List.dropLast, ih h']

example : (create_job emptyRedis "j1" "a.wav" [] 0).1.queue = ["j1"] := by
  decide

example :
    get_job exCreated "j1" = some (createdHash "j1" "a.wav" [] 0) := by
  decide

/-! ## C1: forward-only status sequence -/

/-- C1 counterexample: in the run `exRunPubFail` — the job is created,
transcription succeeds, the Completed update's hash write is applied, and
its publish raises — the worker's exception handler then writes Failed.
The sequence of status values written to the record is Queued, Processing,
Completed, Failed: a further status is written after a terminal one, so
the claimed prefix property fails. -/
theorem C1_terminal_not_final_counterexample :
    statusTrace exRunPubFail.trace
      = [JobStatus.processing, JobStatus.completed, JobStatus.failed]
    ∧ ¬ forwardOk (JobStatus.queued :: statusTrace exRunPubFail.trace) := by
  constructor
  · decide
  · decide

/-- C1 (amended): the record created by `create_job` starts as Queued, and
provided the publish inside the Completed status update does not raise,
the statuses written by `create_job` followed by one `process_job` run form
a prefix of Queued, Processing, then exactly one of Completed or Failed —
no revisiting, and nothing after a terminal status. -/
theorem C1_forward_status_amended (env : WorkerEnv) (st₀ st : RedisState)
    (job : JobHash) (jid audio_path : String) (params : Params)
    (t now : Int) (hpub : env.pubCompleted = none) :
    get_job (create_job st₀ jid audio_path params t).1 jid
      = some (createdHash jid audio_path params t)
    ∧ (createdHash jid audio_path params t).status = some JobStatus.queued
    ∧ forwardOk (JobStatus.queued
        :: statusTrace (process_job env st job now).trace) := by
  refine ⟨?_, rfl, ?_⟩
  · simp [create_job, get_job, lpush, rlookup_rset_self]
  · rcases env with ⟨fe, tr, el, pp, pc, pf⟩
    simp only at hpub
    subst hpub
    rcases job with ⟨jx, sx, ax, px, gx, cx, s2x, c2x, rx, ex⟩
    cases jx <;> cases ax <;> cases px <;> cases fe <;> cases tr <;>
      cases pp <;> cases pf <;>
        simp [process_job, processFail, statusTrace, forwardOk,
          update_status]

/-- Witness for C1 at a successful concrete run. -/
theorem C1_forward_status_amended_witness :
    forwardOk (JobStatus.queued :: statusTrace
      (process_job ⟨true, Except.ok exResult, 2, none, none, none⟩ exCreated
        (createdHash "j1" "a.wav" [] 0) 5).trace) := by
  exact (C1_forward_status_amended
    ⟨true, Except.ok exResult, 2, none, none, none⟩ emptyRedis exCreated
    (createdHash "j1" "a.wav" [] 0) "j1" "a.wav" [] 0 5 rfl).2.2

/-! ## C2: result iff Completed, error iff Failed -/

/-- C2 counterexample: the final record of the run `exRunPubFail` (the
Completed hash write succeeded, its publish raised, and the exception
handler then wrote Failed) has status Failed with BOTH `result` and
`error` set: `result` is set while status is not Completed, violating the
claimed equivalences and mutual exclusion. -/
theorem C2_result_error_both_counterexample :
    ((get_job exRunPubFail.state "j1").getD emptyHash).status
      = some JobStatus.failed
    ∧ ((get_job exRunPubFail.state "j1").getD emptyHash).result.isSome = true
    ∧ ((get_job exRunPubFail.state "j1").getD emptyHash).error.isSome
      = true := by
  decide

/-- C2 (amended): provided the publish inside the Completed status update
does not raise, then at every point of the job's lifetime — after
`create_job` and after each hash write of one `process_job` run on the
created job — the record exists and satisfies `resultErrorInv`: `result`
set iff status Completed, `error` set iff status Failed, never both. -/
theorem C2_result_error_amended (env : WorkerEnv) (st₀ : RedisState)
    (jid audio_path : String) (params : Params) (t now : Int)
    (hpub : env.pubCompleted = none) :
    ((create_job st₀ jid audio_path params t).1
        :: (process_job env (create_job st₀ jid audio_path params t).1
            (createdHash jid audio_path params t) now).snapshots).all
      (fun s => resultErrorInv s jid) = true := by
  rcases env with ⟨fe, tr, el, pp, pc, pf⟩
  simp only at hpub
  subst hpub
  cases fe <;> cases tr <;> cases pp <;> cases pf <;>
    simp [process_job, processFail, update_status, create_job, get_job,
      resultErrorInv, rlookup_rset_self, hsetMerge, mkUpdates, upd,
      createdHash, lpush]

/-- Witness for C2 at a successful concrete run. -/
theorem C2_result_error_amended_witness :
    ((create_job emptyRedis "j1" "a.wav" [] 0).1
        :: (process_job ⟨true, Except.ok exResult, 2, none, none, none⟩
            (create_job emptyRedis "j1" "a.wav" [] 0).1
            (createdHash "j1" "a.wav" [] 0) 5).snapshots).all
      (fun s => resultErrorInv s "j1") = true := by
  exact C2_result_error_amended
    ⟨true, Except.ok exResult, 2, none, none, none⟩ emptyRedis "j1" "a.wav"
    [] 0 5 rfl

/-! ## C3: notification on every update; publish failure handling -/

/-- C3 counterexample: the claim says a failure of the publish step never
fails the caller's update operation.  At this concrete input the hash write
succeeds (the record is present afterwards), yet `update_status` raises the
publish exception instead of returning successfully: the `PUBLISH` in
`update_status` is not wrapped in any handler. -/
theorem C3_publish_failure_counterexample :
    (get_job (update_status emptyRedis "j1" JobStatus.processing (some 10)
        none none 0 (some "connection reset")).1 "j1").isSome = true
    ∧ (update_status emptyRedis "j1" JobStatus.processing (some 10)
        none none 0 (some "connection reset")).2
      = Except.error "connection reset" := by
  decide

/-- C3 (amended): every `update_status` call attempts exactly one
notification carrying the job id, the new status and the progress argument,
after applying the hash write.  When the publish is delivered, exactly that
one message is appended and the call returns successfully; when the publish
raises, the exception propagates to the caller (it is not swallowed), the
hash write stays applied, and no message is recorded. -/
theorem C3_publish_amended (st : RedisState) (jid : String)
    (status : JobStatus) (progress : Option Nat)
    (result : Option TranscriptionResult) (error : Option String)
    (now : Int) :
    (get_job (update_status st jid status progress result error now none).1
        jid
      = some (hsetMerge (mkUpdates status progress result error now)
          ((get_job st jid).getD emptyHash))
      ∧ (update_status st jid status progress result error now
          none).1.published
        = st.published ++ [⟨jid, status, progress⟩]
      ∧ (update_status st jid status progress result error now none).2
        = Except.ok ())
    ∧ ∀ e : String,
      get_job (update_status st jid status progress result error now
          (some e)).1 jid
        = some (hsetMerge (mkUpdates status progress result error now)
            ((get_job st jid).getD emptyHash))
      ∧ (update_status st jid status progress result error now
          (some e)).1.published = st.published
      ∧ (update_status st jid status progress result error now (some e)).2
        = Except.error e := by
  refine ⟨⟨?_, rfl, rfl⟩, fun e => ⟨?_, rfl, rfl⟩⟩ <;>
    simp [update_status, get_job, rlookup_rset_self]

/-! ## C7: partial updates merge; independent settability of fields -/

/-- C7: `update_status` merges only the fields it writes into the existing
record: an update supplying only status and error leaves progress, result,
audio_path, params and created_at untouched, and records of other job ids
are untouched for any argument combination; and the store-level hash merge
supports setting each of status, progress, result, error, started_at and
completed_at independently of the others. -/
theorem C7_partial_update_frame (st : RedisState) (jid : String)
    (status : JobStatus) (error : Option String) (now : Int)
    (pub : Option String) :
    (∀ h₀, get_job st jid = some h₀ →
      get_job (update_status st jid status none none error now pub).1 jid
        = some (hsetMerge (mkUpdates status none none error now) h₀)
      ∧ (hsetMerge (mkUpdates status none none error now) h₀).progress
        = h₀.progress
      ∧ (hsetMerge (mkUpdates status none none error now) h₀).result
        = h₀.result
      ∧ (hsetMerge (mkUpdates status none none error now) h₀).audio_path
        = h₀.audio_path
      ∧ (hsetMerge (mkUpdates status none none error now) h₀).params
        = h₀.params
      ∧ (hsetMerge (mkUpdates status none none error now) h₀).created_at
        = h₀.created_at)
    ∧ (∀ j, j ≠ jid →
        ∀ (progress : Option Nat) (result : Option TranscriptionResult),
        get_job (update_status st jid status progress result error now pub).1
          j = get_job st j)
    ∧ (∀ h v, hsetMerge { noUpdates with status := some v } h
        = { h with status := some v })
    ∧ (∀ h v, hsetMerge { noUpdates with progress := some v } h
        = { h with progress := some v })
    ∧ (∀ h v, hsetMerge { noUpdates with result := some v } h
        = { h with result := some v })
    ∧ (∀ h v, hsetMerge { noUpdates with error := some v } h
        = { h with error := some v })
    ∧ (∀ h v, hsetMerge { noUpdates with started_at := some v } h
        = { h with started_at := some v })
    ∧ (∀ h v, hsetMerge { noUpdates with completed_at := some v } h
        = { h with completed_at := some v }) := by
  refine ⟨?_, ?_, ?_, ?_, ?_, ?_, ?_, ?_⟩
  · intro h₀ hh
    simp only [get_job] at hh
    cases pub <;>
      simp [update_status, get_job, rlookup_rset_self, hh, hsetMerge,
        mkUpdates, upd]
  · intro j hj progress result
    cases pub <;>
      simp [update_status, get_job, rlookup_rset_ne _ _ _ _ hj]
  all_goals intro h v; rfl

/-- Witness for C7 at a concrete state. -/
theorem C7_partial_update_frame_witness :
    get_job (update_status exCreated "j1" JobStatus.failed none none
        (some "boom") 9 none).1 "j1"
      = some (hsetMerge (mkUpdates JobStatus.failed none none (some "boom") 9)
          (createdHash "j1" "a.wav" [] 0))
    ∧ get_job (update_status exCreated "j1" JobStatus.failed (some 5) none
        (some "boom") 9 none).1 "other" = get_job exCreated "other" := by
  have h := C7_partial_update_frame exCreated "j1" JobStatus.failed
    (some "boom") 9 none
  exact ⟨(h.1 (createdHash "j1" "a.wav" [] 0) (by decide)).1,
    h.2.1 "other" (by decide) (some 5) none⟩

/-! ## C9: the two indistinguishable none-results of get_next_job -/

/-- C9: `get_next_job` returns `none` both on an empty-queue timeout and
when the popped id has no record in the store; in the latter case the
popped id is consumed (the new pending list is the old one without its
last element, and under distinct ids the popped id is no longer pending),
so the job is silently lost. -/
theorem C9_dequeue_none_indistinct (st : RedisState) :
    (st.queue = [] → get_next_job st = (st, none))
    ∧ (∀ jid, st.queue.getLast? = some jid → get_job st jid = none →
        (get_next_job st).2 = none
        ∧ (get_next_job st).1.queue = st.queue.dropLast
        ∧ (st.queue.Nodup → jid ∉ (get_next_job st).1.queue)) := by
  constructor
  · intro hq
    simp [get_next_job, brpop, hq]
  · intro jid hlast habs
    have hsplit : st.queue.dropLast ++ [jid] = st.queue :=
      dropLast_append_last _ _ hlast
    refine ⟨?_, ?_, ?_⟩
    · simp [get_next_job, brpop, hlast, habs]
    · simp [get_next_job, brpop, hlast]
    · intro hnd hmem
      rw [← hsplit] at hnd
      have hdis := (List.nodup_append.mp hnd).2.2
      simp [get_next_job, brpop, hlast] at hmem
      exact hdis hmem (by simp)

/-- Witness for C9 at concrete states: a one-element queue whose id has no
record, and the empty queue. -/
theorem C9_dequeue_none_indistinct_witness :
    get_next_job ⟨[], [], [], []⟩ = (⟨[], [], [], []⟩, none)
    ∧ (get_next_job ⟨[], [], ["a"], []⟩).2 = none
    ∧ (get_next_job ⟨[], [], ["a"], []⟩).1.queue = []
    ∧ "a" ∉ (get_next_job ⟨[], [], ["a"], []⟩).1.queue := by
  have h₁ := (C9_dequeue_none_indistinct ⟨[], [], [], []⟩).1 rfl
  have h₂ := (C9_dequeue_none_indistinct ⟨[], [], ["a"], []⟩).2 "a"
    (by decide) (by decide)
  exact ⟨h₁, h₂.1, h₂.2.1, h₂.2.2 (by decide)⟩

/-! ## C10: update_status on an unknown id creates a partial record -/

/-- C10: for an id with no record, `update_status` creates a fresh record
containing exactly the written fields (status, any supplied
progress/result/error, the status-derived timestamp) and nothing else,
leaves every other job's record unchanged, and a subsequent `get_job`
returns that partially-populated record instead of a not-found signal. -/
theorem C10_update_creates_record (st : RedisState) (jid : String)
    (status : JobStatus) (progress : Option Nat)
    (result : Option TranscriptionResult) (error : Option String)
    (now : Int) (pub : Option String)
    (habs : get_job st jid = none) :
    get_job (update_status st jid status progress result error now pub).1 jid
      = some (hsetMerge (mkUpdates status progress result error now)
          emptyHash)
    ∧ (hsetMerge (mkUpdates status progress result error now)
        emptyHash).status = some status
    ∧ (hsetMerge (mkUpdates status progress result error now)
        emptyHash).progress = progress
    ∧ (hsetMerge (mkUpdates status progress result error now)
        emptyHash).result = result
    ∧ (hsetMerge (mkUpdates status progress result error now)
        emptyHash).error = error
    ∧ (hsetMerge (mkUpdates status progress result error now)
        emptyHash).started_at
      = (if status = JobStatus.processing then some now else none)
    ∧ (hsetMerge (mkUpdates status progress result error now)
        emptyHash).completed_at
      = (if status = JobStatus.completed ∨ status = JobStatus.failed
          then some now else none)
    ∧ (hsetMerge (mkUpdates status progress result error now)
        emptyHash).job_id = none
    ∧ (hsetMerge (mkUpdates status progress result error now)
        emptyHash).audio_path = none
    ∧ (hsetMerge (mkUpdates status progress result error now)
        emptyHash).params = none
    ∧ (hsetMerge (mkUpdates status progress result error now)
        emptyHash).created_at = none
    ∧ (get_job (update_status st jid status progress result error now pub).1
        jid).isSome = true
    ∧ (∀ j, j ≠ jid →
        get_job (update_status st jid status progress result error now pub).1
          j = get_job st j) := by
  simp only [get_job] at habs
  have hrec : get_job
      (update_status st jid status progress result error now pub).1 jid
      = some (hsetMerge (mkUpdates status progress result error now)
          emptyHash) := by
    cases pub <;>
      simp [update_status, get_job, rlookup_rset_self, habs]
  refine ⟨hrec, ?_, ?_, ?_, ?_, ?_, ?_, rfl, rfl, rfl, rfl, ?_, ?_⟩
  · rfl
  · cases progress <;> rfl
  · cases result <;> rfl
  · cases error <;> rfl
  · cases status <;> rfl
  · cases status <;> rfl
  · rw [hrec]; rfl
  · intro j hj
    cases pub <;>
      simp [update_status, get_job, rlookup_rset_ne _ _ _ _ hj]

/-! ## C8: missing audio file at claim time -/

/-- C8: for a claimed job whose audio file does not exist at claim time
(with the Processing update's publish delivered), `process_job` writes
exactly the Processing update with progress 10 and then the Failed update,
never invokes the external transcription capability, and the job's record
ends with status Failed and an error message naming the missing file. -/
theorem C8_missing_audio (env : WorkerEnv) (st : RedisState) (job : JobHash)
    (jid audio_path : String) (params : Params) (now : Int)
    (hjid : job.job_id = some jid) (hap : job.audio_path = some audio_path)
    (hps : job.params = some params)
    (hfile : env.fileExists = false) (hpub : env.pubProcessing = none) :
    (process_job env st job now).trace
      = [WEvent.statusWrite JobStatus.processing (some 10),
         WEvent.statusWrite JobStatus.failed none]
    ∧ WEvent.transcribeCall ∉ (process_job env st job now).trace
    ∧ ∃ h, get_job (process_job env st job now).state jid = some h
        ∧ h.status = some JobStatus.failed
        ∧ h.error = some ("Audio file not found: " ++ audio_path) := by
  rcases env with ⟨fe, tr, el, pp, pc, pf⟩
  simp only at hfile hpub
  subst hfile
  subst hpub
  cases pf <;>
    simp [process_job, processFail, update_status, get_job, hjid, hap, hps,
      rlookup_rset_self, hsetMerge, mkUpdates, upd]

/-- Witness for C8: the fixture job with a missing audio file. -/
theorem C8_missing_audio_witness :
    (process_job exEnvNoFile exCreated (createdHash "j1" "a.wav" [] 0)
        5).trace
      = [WEvent.statusWrite JobStatus.processing (some 10),
         WEvent.statusWrite JobStatus.failed none]
    ∧ WEvent.transcribeCall
      ∉ (process_job exEnvNoFile exCreated (createdHash "j1" "a.wav" [] 0)
          5).trace
    ∧ ∃ h, get_job (process_job exEnvNoFile exCreated
          (createdHash "j1" "a.wav" [] 0) 5).state "j1" = some h
        ∧ h.status = some JobStatus.failed
        ∧ h.error = some ("Audio file not found: " ++ "a.wav") := by
  exact C8_missing_audio exEnvNoFile exCreated (createdHash "j1" "a.wav" [] 0)
    "j1" "a.wav" [] 5 rfl rfl rfl rfl rfl

/-- Witness for C10: updating a job id unknown to the empty store. -/
theorem C10_update_creates_record_witness :
    get_job (update_status emptyRedis "jx" JobStatus.failed none none
        (some "oops") 3 none).1 "jx"
      = some (hsetMerge (mkUpdates JobStatus.failed none none (some "oops") 3)
          emptyHash) := by
  exact (C10_update_creates_record emptyRedis "jx" JobStatus.failed none none
    (some "oops") 3 none (by decide)).1

/-! ## C5: strict FIFO of the pending list -/

/-- Invariant of `runOps`: the ids handed out so far, followed by the
still-pending ids oldest-first, are exactly the submitted ids in arrival
order. -/
theorem runOps_fifo (ops : List QOp) (st : RedisState)
    (enqs deqs : List String)
    (hinv : deqs ++ st.queue.reverse = enqs) :
    (runOps ops st enqs deqs).2.2
        ++ (runOps ops st enqs deqs).1.queue.reverse
      = (runOps ops st enqs deqs).2.1 := by
  induction ops generalizing st enqs deqs with
  | nil => simpa [runOps] using hinv
  | cons op rest ih =>
    cases op with
    | submit id a p t =>
      show (runOps rest (create_job st id a p t).1 (enqs ++ [id]) deqs).2.2
          ++ _ = _
      apply ih
      simp only [create_job, lpush, List.reverse_cons, ← hinv,
        List.append_assoc]
    | take =>
      cases hq : st.queue.getLast? with
      | none =>
        show (runOps rest (get_next_job st).1 enqs
            (deqs ++ (match (brpop st.queue).2 with
              | some i => [i] | none => []))).2.2 ++ _ = _
        apply ih
        simp [get_next_job, brpop, hq, hinv]
      | some x =>
        show (runOps rest (get_next_job st).1 enqs
            (deqs ++ (match (brpop st.queue).2 with
              | some i => [i] | none => []))).2.2 ++ _ = _
        apply ih
        have hsplit : st.queue.dropLast ++ [x] = st.queue :=
          dropLast_append_last _ _ hq
        have hrev : st.queue.reverse = x :: st.queue.dropLast.reverse := by
          rw [← hsplit, List.reverse_append]
          simp
        simp [get_next_job, brpop, hq, ← hinv, hrev]

/-- C5: for every interleaving of `create_job` (one `LPUSH` each) and
`get_next_job` (one `BRPOP` each) starting from an empty pending list, the
ids handed out by the successive successful pops are exactly the submitted
ids in arrival order (their sequence, extended by the still-pending ids,
is the arrival sequence), and — with distinct ids — a popped id is no
longer pending. -/
theorem C5_fifo (ops : List QOp) (st₀ : RedisState) (hq : st₀.queue = []) :
    (runOps ops st₀ [] []).2.2
        ++ (runOps ops st₀ [] []).1.queue.reverse
      = (runOps ops st₀ [] []).2.1
    ∧ ((runOps ops st₀ [] []).2.1.Nodup →
        ∀ i ∈ (runOps ops st₀ [] []).2.2,
          i ∉ (runOps ops st₀ [] []).1.queue) := by
  have hinv := runOps_fifo ops st₀ [] [] (by simp [hq])
  refine ⟨hinv, ?_⟩
  intro hnd i hdeq hmem
  rw [← hinv] at hnd
  have hdis := (List.nodup_append.mp hnd).2.2
  exact hdis hdeq (List.mem_reverse.mpr hmem)

/-- Witness for C5 on a concrete interleaving: submit a and b, pop, submit
c, pop twice; the pops hand out a, b, c in arrival order. -/
theorem C5_fifo_witness :
    (runOps [QOp.submit "a" "x.wav" [] 0, QOp.submit "b" "y.wav" [] 1,
        QOp.take, QOp.submit "c" "z.wav" [] 2, QOp.take, QOp.take]
      emptyRedis [] []).2.2
        ++ (runOps [QOp.submit "a" "x.wav" [] 0, QOp.submit "b" "y.wav" [] 1,
            QOp.take, QOp.submit "c" "z.wav" [] 2, QOp.take, QOp.take]
          emptyRedis [] []).1.queue.reverse
      = (runOps [QOp.submit "a" "x.wav" [] 0, QOp.submit "b" "y.wav" [] 1,
          QOp.take, QOp.submit "c" "z.wav" [] 2, QOp.take, QOp.take]
        emptyRedis [] []).2.1
    ∧ (runOps [QOp.submit "a" "x.wav" [] 0, QOp.submit "b" "y.wav" [] 1,
        QOp.take, QOp.submit "c" "z.wav" [] 2, QOp.take, QOp.take]
      emptyRedis [] []).2.2 = ["a", "b", "c"] := by
  refine ⟨(C5_fifo _ emptyRedis rfl).1, by decide⟩

/-! ## Cleanup-sweep behavior shared by C4 and C6 -/

theorem storedTerminalTest_false (s : Option JobStatus) :
    storedTerminalTest s = false := by
  rcases s with _ | v
  · rfl
  · cases v <;> rfl

/-- The line-251 status test never passes, so the cleanup scan deletes
nothing and counts nothing. -/
theorem cleanupGo_noop (cutoff : Int) (ks : List String) (st : RedisState)
    (d : Nat) : cleanupGo cutoff ks st d = (st, d) := by
  induction ks with
  | nil => rfl
  | cons k ks ih =>
    cases hk : get_job st k with
    | none => simp [cleanupGo, hk, ih]
    | some job => simp [cleanupGo, hk, storedTerminalTest_false, ih]

/-! ## C6: the retention sweep never deletes anything (code bug) -/

/-- C6: the claim states the intended behavior — also the behavior the
function's own docstring promises ("Delete completed/failed jobs older
than N days ... Returns: Number of jobs deleted") — but the code never
deletes anything.  The stored status string is `str(member)` =
`"JobStatus.X"` (lines 92 and 167, see `pyStatusStr`), while the line-251
membership test compares that string against the members' values
`"completed"`/`"failed"`, so the test is always false.  Hence
`cleanup_old_jobs` returns every store unchanged with count 0; at the
failing input `exStaleDone` (one completed job finished on day 1, swept
with a 7-day cutoff on day 10) it leaves the stale record in place and
returns 0 where the claim demands deletion and count 1. -/
theorem C6_cleanup_never_deletes :
    (∀ (st : RedisState) (days : Nat) (now : Int),
        (cleanup_old_jobs st days now).1 = st
        ∧ (cleanup_old_jobs st days now).2 = 0)
    ∧ get_job (cleanup_old_jobs exStaleDone 7 (10 * 86400)).1 "a"
      = some { emptyHash with
          status := some JobStatus.completed
          completed_at := some 86400 }
    ∧ (cleanup_old_jobs exStaleDone 7 (10 * 86400)).2 = 0 := by
  refine ⟨?_, by decide, by decide⟩
  intro st days now
  have hnoop : cleanup_old_jobs st days now = (st, 0) := by
    show cleanupGo (now - (days : Int) * 86400)
      (st.hashes.map (fun e => e.1)) st 0 = (st, 0)
    exact cleanupGo_noop _ _ st 0
  rw [hnoop]
  exact ⟨rfl, rfl⟩

/-! ## C4: deletion of non-terminal records -/

/-- C4 counterexample: a job created at time 0 and never updated is still
Queued at time 604800 (7 days later), and the per-record expiry set by
`create_job` then removes it: a record is deleted while its status is
Queued, contradicting the claim that neither deletion path removes a
Queued or Processing record. -/
theorem C4_expiry_deletes_queued_counterexample :
    ((get_job exCreated "j1").getD emptyHash).status = some JobStatus.queued
    ∧ get_job (expirePass exCreated 604800) "j1" = none := by
  constructor
  · decide
  · decide

/-- C4 (amended): the retention sweep (`cleanup_old_jobs`) indeed never
deletes a record whose status is Queued or Processing, regardless of age
(in fact it deletes nothing at all — see `C6_cleanup_never_deletes`);
and `update_status` never refreshes a record's expiry.  But the per-record
7-day expiry set at creation is NOT status-guarded: once 7 days have
elapsed since creation, the expiry removes the record even if its status
is still Queued or Processing. -/
theorem C4_deletion_paths_amended :
    (∀ (st : RedisState) (days : Nat) (now : Int) (jid : String)
        (h : JobHash),
        (st.hashes.map (fun e => e.1)).Nodup →
        get_job st jid = some h →
        (h.status = some JobStatus.queued
          ∨ h.status = some JobStatus.processing) →
        get_job (cleanup_old_jobs st days now).1 jid = some h)
    ∧ (∀ (st : RedisState) (jid : String) (status : JobStatus)
        (progress : Option Nat) (result : Option TranscriptionResult)
        (error : Option String) (now : Int) (pub : Option String),
        (update_status st jid status progress result error now
          pub).1.expireAt = st.expireAt)
    ∧ (∀ (st₀ : RedisState) (jid audio_path : String) (params : Params)
        (t now : Int), t + SEVEN_DAYS ≤ now →
        get_job (expirePass (create_job st₀ jid audio_path params t).1 now)
          jid = none) := by
  refine ⟨?_, ?_, ?_⟩
  · intro st days now jid h _hnd hg _hqp
    have hnoop : cleanup_old_jobs st days now = (st, 0) := by
      show cleanupGo (now - (days : Int) * 86400)
        (st.hashes.map (fun e => e.1)) st 0 = (st, 0)
      exact cleanupGo_noop _ _ st 0
    rw [hnoop]
    exact hg
  · intro st jid status progress result error now pub
    cases pub <;> rfl
  · intro st₀ jid audio_path params t now hle
    have hdl : rlookup (create_job st₀ jid audio_path params t).1.expireAt
        jid = some (t + SEVEN_DAYS) := by
      simp [create_job, rlookup_rset_self]
    show rlookup (List.filter _ _) jid = none
    apply rlookup_filter_none
    intro v
    simp only [hdl]
    simp only [decide_eq_false_iff_not, Int.not_lt]
    exact hle

/-- Witness for C4: the sweep keeps an arbitrarily old Queued job, while
the expiry deletes the 7-day-old Queued job of the counterexample state. -/
theorem C4_deletion_paths_amended_witness :
    get_job (cleanup_old_jobs exCreated 7 (100 * 86400)).1 "j1"
      = some (createdHash "j1" "a.wav" [] 0)
    ∧ (update_status exCreated "j1" JobStatus.processing (some 10) none none
        5 none).1.expireAt = exCreated.expireAt
    ∧ get_job (expirePass exCreated 604800) "j1" = none := by
  refine ⟨?_, ?_, ?_⟩
  · exact C4_deletion_paths_amended.1 exCreated 7 (100 * 86400) "j1"
      (createdHash "j1" "a.wav" [] 0) (by decide) (by decide) (Or.inl rfl)
  · exact C4_deletion_paths_amended.2.1 exCreated "j1" JobStatus.processing
      (some 10) none none 5 none
  · exact C4_deletion_paths_amended.2.2 emptyRedis "j1" "a.wav" [] 0 604800
      (by decide)
